import Mathlib

/-!
# Verification of the hush AST rendering engine

A shallow embedding of the two AST renderers of the hush shell language:

* `src/syntax/ast/fmt.rs` — the human (pretty-printing) renderer, driven by a
  `Context` carrying a name interner and an optional indentation depth;
* `src/syntax/ast/debug.rs` — the diagnostic (`Debug`) renderer, here embedded
  in its compact (non-alternate) layout.

The AST node types themselves live outside the two given source files; they are
reconstructed from the constructor patterns that the two renderers match on
(which is what the renderers are total or partial over), together with the data
model of the specification.  The diagnostic renderer in `debug.rs` matches an
older shape of the tree: it has no arm for the `IllFormed` variants of
`Block`/`Expr`/`Statement`, none for `UnaryOp::Try`, and none for
`Literal::Identifier`, all of which `fmt.rs` does handle.  The embedding keeps
one tree (the one `fmt.rs` dispatches over, which agrees with the
specification) and makes the diagnostic renderer `Option`-valued: `none` marks
a constructor for which `debug.rs` defines no rendering.

External collaborators (the lexer's token texts, the `Indentation` text, the
symbol interner, terminal colors, `SourcePos`) are not part of the two source
files and are modelled from the specification; each such definition carries a
doc comment saying so.
-/

namespace Hush

/-! ## Basic string helpers -/

/-- Decimal digit character (for `k < 10`). -/
def digitChar (k : Nat) : Char := Char.ofNat (48 + k)

/-- Decimal digits of `n`, most significant first.  The first argument is
structural fuel (`n + 1` always suffices), so that the function reduces by
kernel computation. -/
def natDigitsCore : Nat → Nat → List Char
  | 0, _ => []
  | fuel + 1, n =>
    if n < 10 then [digitChar n]
    else natDigitsCore fuel (n / 10) ++ [digitChar (n % 10)]

/-- Decimal rendering of a natural number, as Rust's `Display` for unsigned
integers produces it. -/
def natRepr (n : Nat) : String := String.mk (natDigitsCore (n + 1) n)

/-- Decimal rendering of an integer, as Rust's `Display` for signed integers
produces it. -/
def intRepr : Int → String
  | .ofNat n => natRepr n
  | .negSucc m => "-" ++ natRepr (m + 1)

/-- Join a list of strings with a separator between consecutive elements
(the behaviour of `fmt::sep_by` in the source: each item is written, with the
separator written between items). -/
def joinSep (sep : String) : List String → String
  | [] => ""
  | [s] => s
  | s :: rest => s ++ sep ++ joinSep sep rest

/-- A byte, as in Rust's `u8`. -/
abbrev Byte := Fin 256

/-- Hexadecimal digit character (for `k < 16`). -/
def hexDigitChar (k : Nat) : Char :=
  if k < 10 then Char.ofNat (48 + k) else Char.ofNat (87 + k)

/-- Lowercase hexadecimal digits of `n` (fuelled, as `natDigitsCore`). -/
def hexDigitsCore : Nat → Nat → List Char
  | 0, _ => []
  | fuel + 1, n =>
    if n < 16 then [hexDigitChar n]
    else hexDigitsCore fuel (n / 16) ++ [hexDigitChar (n % 16)]

/-- Lowercase hexadecimal rendering of a natural number. -/
def hexRepr (n : Nat) : String := String.mk (hexDigitsCore (n + 1) n)

/-- Model of Rust's `char::escape_debug` for a single character: common escape
sequences for newline, carriage return, tab, backslash and both quote
characters, a `\u{...}` escape for the remaining control characters, and every
other character unchanged. -/
def escapeDebugChar (c : Char) : String :=
  if c = '\n' then "\\n"
  else if c = '\r' then "\\r"
  else if c = '\t' then "\\t"
  else if c = '\\' then "\\\\"
  else if c = '"' then "\\\""
  else if c = Char.ofNat 39 then "\\" ++ String.mk [Char.ofNat 39]
  else if c.toNat < 32 ∨ c.toNat = 127 then "\\u\x7b" ++ hexRepr c.toNat ++ "\x7d"
  else String.mk [c]

/-- Model of Rust's `String::from_utf8_lossy` on a byte sequence, decoded
bytewise: ASCII bytes become the corresponding character, and every non-ASCII
byte becomes the replacement character U+FFFD.  (Rust decodes valid multi-byte
UTF-8 sequences to their code points instead; the difference only concerns
which non-ASCII, hence non-newline, characters appear, which no property here
depends on.) -/
def utf8Lossy (s : List Byte) : String :=
  String.mk (s.map fun b => if b.val < 128 then Char.ofNat b.val else Char.ofNat 0xFFFD)

/-- `String::from_utf8_lossy(..).escape_debug()`, the display-escaping applied
by the human renderer to byte-string content. -/
def escapeBytes (s : List Byte) : String :=
  joinSep "" ((utf8Lossy s).data.map escapeDebugChar)

/-! ## External collaborators, modelled from the specification -/

/-- Modelled from the spec: terminal color annotations (`color::Fg`,
`color::Bold`) "must be no-ops when output is not a color-capable sink"
(§4.3); the model renders the wrapped text only, so a colored value is just
its text and needs no definition of its own.  Corresponds to
`fmt.rs::ILL_FORMED`, the fixed marker string (wrapped in red) rendered for
every ill-formed node. -/
def ILL_FORMED : String := "***ill-formed***"

/-- An identifier's stable numeric handle (`symbol::Symbol`). -/
abbrev Symbol := Nat

/-- Modelled from the spec: the name-resolution service (`symbol::Interner`),
mapping an identifier's numeric handle back to its source spelling (§6). -/
abbrev Interner := Symbol → String

/-- A source position.  Only its equality with the distinguished ill-formed
sentinel value is consulted by the renderers. -/
structure SourcePos where
  line : Nat
  column : Nat
deriving DecidableEq

/-- Modelled from the spec: the "well-known constant value" of the
invalid-position sentinel (§6); the concrete choice is irrelevant, only its
decidable equality is used. -/
def SourcePos.ill_formed : SourcePos := ⟨0, 0⟩

/-- Modelled from the spec: a finite floating-point value, represented by its
decimal rendering pieces (integer part and fractional digits) since
floating-point arithmetic itself is out of scope; rendered as `i.f` by both
renderers (Rust renders `f64` via `Display` in both). -/
structure FloatLit where
  intPart : Int
  fracPart : Nat
deriving DecidableEq

/-- Decimal rendering of a modelled float. -/
def floatRepr (x : FloatLit) : String := intRepr x.intPart ++ "." ++ natRepr x.fracPart

/-- The keywords used by the human renderer (`lexer::Keyword`). -/
inductive Keyword where
  | if_ | then_ | else_ | end_ | function_ | let_ | return_ | break_
  | while_ | do_ | for_ | in_ | self_
deriving DecidableEq

/-- Modelled from the spec: the keyword token texts (the lexer is outside
`src/`); the texts are the language keywords the spec's renderings use
(§4.3). -/
def Keyword.render : Keyword → String
  | .if_ => "if"
  | .then_ => "then"
  | .else_ => "else"
  | .end_ => "end"
  | .function_ => "function"
  | .let_ => "let"
  | .return_ => "return"
  | .break_ => "break"
  | .while_ => "while"
  | .do_ => "do"
  | .for_ => "for"
  | .in_ => "in"
  | .self_ => "self"

/-- Unary operators (`ast::UnaryOp`), as matched by `fmt.rs` (the `Debug` impl
in `debug.rs` lacks the `Try` arm). -/
inductive UnaryOp where
  | minus | not | try_
deriving DecidableEq

/-- Modelled from the spec: `UnaryOp::is_postfix` (defined in the AST module
outside `src/`): "the try unary operator is rendered postfix (`operand?`); all
others prefix" (§4.3). -/
def UnaryOp.postfixed : UnaryOp → Bool
  | .try_ => true
  | _ => false

/-- Modelled from the spec: the unary operator token texts of the lexer
(outside `src/`); `-` and `not` agree with the operator table in `debug.rs`,
and the try operator's text is `?` (the spec renders it as `operand?`). -/
def UnaryOp.render : UnaryOp → String
  | .minus => "-"
  | .not => "not"
  | .try_ => "?"

/-- The diagnostic rendering of a unary operator, exactly the `Debug` table of
`debug.rs` (lines 51–58): it has arms for `Minus` and `Not` only; `Try` has no
rendering. -/
def UnaryOp.debugRender : UnaryOp → Option String
  | .minus => some "-"
  | .not => some "not"
  | .try_ => none

/-- Binary operators (`ast::BinaryOp`). -/
inductive BinaryOp where
  | plus | minus | times | div | mod | equals | notEquals
  | greater | greaterEquals | lower | lowerEquals | and | or | concat
deriving DecidableEq

/-- Modelled from the spec: the binary operator token texts of the lexer
(outside `src/`), with the surface texts the diagnostic table in `debug.rs`
lists for the same operators. -/
def BinaryOp.render : BinaryOp → String
  | .plus => "+"
  | .minus => "-"
  | .times => "*"
  | .div => "/"
  | .mod => "%"
  | .equals => "=="
  | .notEquals => "!="
  | .greater => ">"
  | .greaterEquals => ">="
  | .lower => "<"
  | .lowerEquals => "<="
  | .and => "and"
  | .or => "or"
  | .concat => "++"

/-- The diagnostic rendering of a binary operator, the `Debug` table of
`debug.rs` (lines 61–80). -/
def BinaryOp.debugRender : BinaryOp → String
  | .plus => "+"
  | .minus => "-"
  | .times => "*"
  | .div => "/"
  | .mod => "%"
  | .equals => "=="
  | .notEquals => "!="
  | .greater => ">"
  | .greaterEquals => ">="
  | .lower => "<"
  | .lowerEquals => "<="
  | .and => "and"
  | .or => "or"
  | .concat => "++"

/-- Modelled from the spec: the text of one indentation level ×`d`
(`fmt::Indentation` is outside `src/`); the spec's end-to-end examples show
four spaces per level (§8). -/
def indentationText (d : Nat) : String := String.mk (List.replicate (4 * d) ' ')

/-- Modelled from the spec: the command `try` marker token
(`lexer::CommandOperator::Try`, outside `src/`), the `?` marker appended to a
basic command whose `abort_on_error` flag is false (§4.4). -/
def commandTryToken : String := "?"

/-- Modelled from the spec: the pipe separator token (`lexer::TokenKind::Pipe`,
outside `src/`); the spec's pipeline example renders it as `|` (§8). -/
def pipeToken : String := "|"

/-! ## The rendering context (`fmt.rs::Context`) -/

/-- The context for displaying AST nodes: the name interner and the
indentation level, where `none` indicates inline (compact) notation. -/
structure Context where
  interner : Interner
  indentation : Option Nat

/-- Increase the indentation level (`Context::indent`). -/
def Context.indent (c : Context) : Context :=
  { c with indentation := c.indentation.map (· + 1) }

/-- Set to inlined (`Context::inlined`). -/
def Context.inlined (c : Context) : Context :=
  { c with indentation := none }

/-- The `step` helper of `fmt.rs`: a newline followed by the context's
indentation, or a single space when inlined. -/
def step (ctx : Context) : String :=
  match ctx.indentation with
  | some d => "\n" ++ indentationText d
  | none => " "

/-- The per-statement prefix written by the `Block` renderer: the context's
indentation, or a single space when inlined. -/
def blockPrefix (ctx : Context) : String :=
  match ctx.indentation with
  | some d => indentationText d
  | none => " "

/-- The indentation written by `if let Some(indent) = context.indentation`
blocks (nothing when inlined). -/
def indentOpt (ctx : Context) : String :=
  match ctx.indentation with
  | some d => indentationText d
  | none => ""

/-! ## Shell construct node types (`ast::Argument` and friends) -/

/-- A literal unit or `${symbol}` interpolation inside an argument
(`ast::ArgUnit`). -/
inductive ArgUnit where
  | literal (lit : List Byte)
  | dollar (symbol : Symbol) (pos : SourcePos)
deriving DecidableEq

mutual

/-- A glob/brace expansion inside an argument (`ast::ArgExpansion`). -/
inductive ArgExpansion where
  | home
  | range (start stop : Int)
  | collection (items : ArgList)
  | star
  | question
  | charClass (chars : List Byte)

/-- One part of an argument (`ast::ArgPart`). -/
inductive ArgPart where
  | unit (u : ArgUnit)
  | expansion (e : ArgExpansion)

/-- The ordered parts of an argument (spine of the source's part sequence). -/
inductive ArgPartList where
  | nil
  | cons (head : ArgPart) (tail : ArgPartList)

/-- A command argument (`ast::Argument`): its parts and the source position
whose equality with `SourcePos.ill_formed` marks an ill-formed argument. -/
inductive Argument where
  | mk (parts : ArgPartList) (pos : SourcePos)

/-- An ordered sequence of arguments (spine of a brace collection). -/
inductive ArgList where
  | nil
  | cons (head : Argument) (tail : ArgList)

end

/-- Target of an output redirection (`ast::RedirectionTarget`). -/
inductive RedirectionTarget where
  | fd (fd : Nat)
  | overwrite (arg : Argument)
  | append (arg : Argument)

/-- A redirection (`ast::Redirection`), with its ill-formed sentinel
variant. -/
inductive Redirection where
  | illFormed
  | output (source : Nat) (target : RedirectionTarget)
  | input (literal : Bool) (source : Argument)

/-- A single command of a pipeline (`ast::BasicCommand`). -/
structure BasicCommand where
  program : Argument
  arguments : List Argument
  redirections : List Redirection
  abort_on_error : Bool

/-- A pipeline (`ast::Command`): head command and pipeline tail. -/
structure Command where
  head : BasicCommand
  tail : List BasicCommand

/-- The execution kind of a command block (`ast::CommandBlockKind`). -/
inductive CommandBlockKind where
  | synchronous | asynchronous | capture
deriving DecidableEq

/-- A command block (`ast::CommandBlock`): kind tag, head command, and the
ordered tail of further commands. -/
structure CommandBlock where
  kind : CommandBlockKind
  head : Command
  tail : List Command

/-! ## Human renderer for shell constructs (`fmt.rs`, lines 416–615) -/

/-- `Display for ArgUnit`. -/
def renderArgUnit (intr : Interner) : ArgUnit → String
  | .literal lit => escapeBytes lit
  | .dollar symbol _ => "$\x7b" ++ intr symbol ++ "\x7d"

mutual

/-- `Display for ArgExpansion`. -/
def renderArgExpansion (intr : Interner) : ArgExpansion → String
  | .home => "~/"
  | .range start stop => "\x7b" ++ intRepr start ++ ".." ++ intRepr stop ++ "\x7d"
  | .collection items => "\x7b" ++ joinSep "," (renderArgList intr items) ++ "\x7d"
  | .star => "*"
  | .question => "?"
  | .charClass chars => "[" ++ escapeBytes chars ++ "]"

/-- `Display for ArgPart`. -/
def renderArgPart (intr : Interner) : ArgPart → String
  | .unit u => renderArgUnit intr u
  | .expansion e => renderArgExpansion intr e

/-- The concatenation of an argument's parts, in order. -/
def renderArgParts (intr : Interner) : ArgPartList → String
  | .nil => ""
  | .cons p rest => renderArgPart intr p ++ renderArgParts intr rest

/-- `Display for Argument`: the ill-formed marker when the position is the
invalid sentinel, otherwise the parts wrapped in double quotes. -/
def renderArgument (intr : Interner) : Argument → String
  | .mk parts pos =>
    if pos = SourcePos.ill_formed then ILL_FORMED
    else "\"" ++ renderArgParts intr parts ++ "\""

/-- The renderings of a sequence of arguments. -/
def renderArgList (intr : Interner) : ArgList → List String
  | .nil => []
  | .cons a rest => renderArgument intr a :: renderArgList intr rest

end

/-- `Display for RedirectionTarget`. -/
def renderRedirectionTarget (intr : Interner) : RedirectionTarget → String
  | .fd fd => ">" ++ natRepr fd
  | .overwrite arg => ">" ++ renderArgument intr arg
  | .append arg => ">>" ++ renderArgument intr arg

/-- `Display for Redirection`. -/
def renderRedirection (intr : Interner) : Redirection → String
  | .illFormed => ILL_FORMED
  | .output source target => natRepr source ++ renderRedirectionTarget intr target
  | .input false source => "<" ++ renderArgument intr source
  | .input true source => "<<" ++ renderArgument intr source

/-- `Display for BasicCommand`: program, space-separated arguments and
redirections, and the try marker when `abort_on_error` is false. -/
def renderBasicCommand (intr : Interner) (cmd : BasicCommand) : String :=
  renderArgument intr cmd.program
  ++ joinSep "" (cmd.arguments.map fun a => " " ++ renderArgument intr a)
  ++ joinSep "" (cmd.redirections.map fun r => " " ++ renderRedirection intr r)
  ++ (if cmd.abort_on_error then "" else " " ++ commandTryToken)

/-- `Display for Command`: head, then each pipeline-tail command preceded by
the pipe separator. -/
def renderCommand (intr : Interner) (cmd : Command) : String :=
  renderBasicCommand intr cmd.head
  ++ joinSep "" (cmd.tail.map fun c => " " ++ pipeToken ++ " " ++ renderBasicCommand intr c)

/-- `Display for CommandBlockKind`: the fixed opening token per kind. -/
def renderCommandBlockKind : CommandBlockKind → String
  | .synchronous => "\x7b"
  | .asynchronous => "&\x7b"
  | .capture => "$\x7b"

/-- `Display for CommandBlock`: opening token, head and tail commands at one
extra indentation level (`;`-separated), then the closer at the block's own
indentation. -/
def renderCommandBlock (blk : CommandBlock) (ctx : Context) : String :=
  renderCommandBlockKind blk.kind
  ++ step ctx.indent
  ++ renderCommand ctx.interner blk.head
  ++ joinSep "" (blk.tail.map fun c => ";" ++ step ctx.indent ++ renderCommand ctx.interner c)
  ++ step ctx
  ++ "\x7d"

/-! ## Diagnostic renderer for shell constructs

`debug.rs` renders a command block via `f.debug_set().entries(commands)`,
which formats each command through its `Debug` implementation.  Those
implementations are not in `src/`; the spec only fixes that diagnostic mode is
a lossless "generic structured-collection notation" (§4.2).  Modelled from the
spec: the texts below are Rust's derived `Debug` (compact layout) over the
fields visible in `src/`; the development relies only on this text being
newline-free, which holds for any derived compact `Debug`. -/

/-- Rendering of a boolean, as Rust displays `bool`. -/
def boolRepr (b : Bool) : String := if b then "true" else "false"

/-- Derived compact `Debug` of a byte sequence: decimal numbers in square
brackets. -/
def byteListDebug (s : List Byte) : String :=
  "[" ++ joinSep ", " (s.map fun b => natRepr b.val) ++ "]"

/-- Derived compact `Debug` of a symbol handle. -/
def symbolDebug (s : Symbol) : String := "Symbol(" ++ natRepr s ++ ")"

/-- Derived compact `Debug` of a source position. -/
def sourcePosDebug (p : SourcePos) : String :=
  "SourcePos \x7b line: " ++ natRepr p.line ++ ", column: " ++ natRepr p.column ++ " \x7d"

/-- Derived compact `Debug` of an `ArgUnit`. -/
def argUnitDebug : ArgUnit → String
  | .literal lit => "Literal(" ++ byteListDebug lit ++ ")"
  | .dollar symbol pos =>
    "Dollar \x7b symbol: " ++ symbolDebug symbol ++ ", pos: " ++ sourcePosDebug pos ++ " \x7d"

mutual

/-- Derived compact `Debug` of an `ArgExpansion`. -/
def argExpansionDebug : ArgExpansion → String
  | .home => "Home"
  | .range start stop => "Range(" ++ intRepr start ++ ", " ++ intRepr stop ++ ")"
  | .collection items => "Collection([" ++ joinSep ", " (argListDebug items) ++ "])"
  | .star => "Star"
  | .question => "Question"
  | .charClass chars => "CharClass(" ++ byteListDebug chars ++ ")"

/-- Derived compact `Debug` of an `ArgPart`. -/
def argPartDebug : ArgPart → String
  | .unit u => "Unit(" ++ argUnitDebug u ++ ")"
  | .expansion e => "Expansion(" ++ argExpansionDebug e ++ ")"

/-- Derived compact `Debug` texts of an argument's parts. -/
def argPartsDebug : ArgPartList → List String
  | .nil => []
  | .cons p rest => argPartDebug p :: argPartsDebug rest

/-- Derived compact `Debug` of an `Argument`. -/
def argumentDebug : Argument → String
  | .mk parts pos =>
    "Argument \x7b parts: [" ++ joinSep ", " (argPartsDebug parts) ++ "], pos: "
      ++ sourcePosDebug pos ++ " \x7d"

/-- Derived compact `Debug` texts of a sequence of arguments. -/
def argListDebug : ArgList → List String
  | .nil => []
  | .cons a rest => argumentDebug a :: argListDebug rest

end

/-- Derived compact `Debug` of a `RedirectionTarget`. -/
def redirectionTargetDebug : RedirectionTarget → String
  | .fd fd => "Fd(" ++ natRepr fd ++ ")"
  | .overwrite arg => "Overwrite(" ++ argumentDebug arg ++ ")"
  | .append arg => "Append(" ++ argumentDebug arg ++ ")"

/-- Derived compact `Debug` of a `Redirection`. -/
def redirectionDebug : Redirection → String
  | .illFormed => "IllFormed"
  | .output source target =>
    "Output \x7b source: " ++ natRepr source ++ ", target: "
      ++ redirectionTargetDebug target ++ " \x7d"
  | .input literal source =>
    "Input \x7b literal: " ++ boolRepr literal ++ ", source: "
      ++ argumentDebug source ++ " \x7d"

/-- Derived compact `Debug` of a `BasicCommand`. -/
def basicCommandDebug (cmd : BasicCommand) : String :=
  "BasicCommand \x7b program: " ++ argumentDebug cmd.program
  ++ ", arguments: [" ++ joinSep ", " (cmd.arguments.map argumentDebug)
  ++ "], redirections: [" ++ joinSep ", " (cmd.redirections.map redirectionDebug)
  ++ "], abort_on_error: " ++ boolRepr cmd.abort_on_error ++ " \x7d"

/-- Derived compact `Debug` of a `Command`. -/
def commandDebug (cmd : Command) : String :=
  "Command \x7b head: " ++ basicCommandDebug cmd.head
  ++ ", tail: [" ++ joinSep ", " (cmd.tail.map basicCommandDebug) ++ "] \x7d"

/-! ## Core language node types (`ast::Block`, `Literal`, `Expr`, `Statement`)

The constructors and their payloads are the ones the `fmt.rs` renderer
dispatches over, which agree with the spec's data model (§3).  Source-position
metadata that neither renderer consults (`..` in the source patterns) is
omitted; positions pattern-matched by the renderers (dictionary keys,
parameters, argument positions) are kept.  The statement/expression sequences
are represented by dedicated spine types so that every function is structural.
-/

mutual

/-- A block (`ast::Block`): a statement sequence or the ill-formed
sentinel. -/
inductive Block where
  | illFormed
  | block (stmts : StmtList)

/-- The ordered statements of a block. -/
inductive StmtList where
  | nil
  | cons (head : Statement) (tail : StmtList)

/-- A literal (`ast::Literal`). -/
inductive Literal where
  | nil
  | bool (b : Bool)
  | int (i : Int)
  | float (x : FloatLit)
  | byte (c : Byte)
  | string (s : List Byte)
  | array (items : ExprList)
  | dict (entries : DictEntries)
  | function (params : List (Symbol × SourcePos)) (body : Block)
  | identifier (identifier : Symbol)

/-- An ordered sequence of expressions (array items, call arguments). -/
inductive ExprList where
  | nil
  | cons (head : Expr) (tail : ExprList)

/-- The ordered `(key, position) → value` entries of a dictionary literal. -/
inductive DictEntries where
  | nil
  | cons (key : Symbol × SourcePos) (value : Expr) (tail : DictEntries)

/-- An expression (`ast::Expr`). -/
inductive Expr where
  | illFormed
  | self_
  | identifier (identifier : Symbol)
  | literal (literal : Literal)
  | unaryOp (op : UnaryOp) (operand : Expr)
  | binaryOp (left : Expr) (op : BinaryOp) (right : Expr)
  | ifExpr (condition : Expr) (then_ : Block) (otherwise : Block)
  | access (object : Expr) (field : Expr)
  | call (function : Expr) (args : ExprList)
  | commandBlock (block : CommandBlock)

/-- A statement (`ast::Statement`). -/
inductive Statement where
  | illFormed
  | letStmt (identifier : Symbol) (init : Expr)
  | assign (left : Expr) (right : Expr)
  | returnStmt (expr : Expr)
  | breakStmt
  | whileStmt (condition : Expr) (block : Block)
  | forStmt (identifier : Symbol) (expr : Expr) (block : Block)
  | expr (e : Expr)

end

/-- Modelled from the spec: `Block::is_empty` (defined in the AST module
outside `src/`): a block is empty when its statement sequence is; the
ill-formed sentinel is not an empty block (an empty branch is "valid and
silently skipped" while ill-formedness must stay "deliberately loud", §4.3
and §7, so the sentinel must not be skipped as an empty body would be). -/
def Block.isEmpty : Block → Bool
  | .illFormed => false
  | .block .nil => true
  | .block (.cons _ _) => false

/-- Whether an expression is an identifier literal — the guard
`matches!(field, Expr::Literal { literal: Literal::Identifier(..), .. })` of
the dot-notation arm in `fmt.rs` (line 300). -/
def Expr.isIdentifierLiteral : Expr → Bool
  | .literal (.identifier _) => true
  | _ => false

/-! ## Human renderer for core constructs (`fmt.rs`, lines 67–413) -/

mutual

/-- `Display for Block` (`fmt.rs` lines 67–89): the ill-formed marker, or the
statements each preceded by the context's indentation (resp. one space when
inlined) and separated by newlines (resp. `;`). -/
def renderBlock : Block → Context → String
  | .illFormed, _ => ILL_FORMED
  | .block stmts, ctx =>
    joinSep (if ctx.indentation.isSome then "\n" else ";")
      ((renderStmtList stmts ctx).map fun s => blockPrefix ctx ++ s)

/-- The renderings of the statements of a block, in order. -/
def renderStmtList : StmtList → Context → List String
  | .nil, _ => []
  | .cons s rest, ctx => renderStatement s ctx :: renderStmtList rest ctx

/-- `Display for Literal` (`fmt.rs` lines 92–186). -/
def renderLiteral : Literal → Context → String
  | .nil, _ => "nil"
  | .bool b, _ => boolRepr b
  | .int i, _ => intRepr i
  | .float x, _ => floatRepr x
  | .byte c, _ => "'" ++ escapeDebugChar (Char.ofNat c.val) ++ "'"
  | .string s, _ => "\"" ++ escapeBytes s ++ "\""
  | .array items, ctx =>
    "["
    ++ joinSep "," ((renderExprList items ctx.indent).map fun s => step ctx.indent ++ s)
    ++ (if items matches .nil then "" else step ctx)
    ++ "]"
  | .dict entries, ctx =>
    "@["
    ++ joinSep "," ((renderDictEntries entries ctx.indent).map fun s => step ctx.indent ++ s)
    ++ (if entries matches .nil then "" else step ctx)
    ++ "]"
  | .function params body, ctx =>
    Keyword.render .function_
    ++ "(" ++ joinSep ", " (params.map fun p => ctx.interner p.1)
    ++ (if ctx.indentation.isSome then ")\n" else ")")
    ++ renderBlock body ctx.indent
    ++ step ctx
    ++ Keyword.render .end_
  | .identifier identifier, ctx => ctx.interner identifier

/-- The renderings of a sequence of expressions, in order, each in the given
context. -/
def renderExprList : ExprList → Context → List String
  | .nil, _ => []
  | .cons e rest, ctx => renderExpr e ctx :: renderExprList rest ctx

/-- The `key: value` renderings of a dictionary's entries, in order (keys
resolved through the interner, their position metadata dropped). -/
def renderDictEntries : DictEntries → Context → List String
  | .nil, _ => []
  | .cons k v rest, ctx =>
    (ctx.interner k.1 ++ ": " ++ renderExpr v ctx) :: renderDictEntries rest ctx

/-- `Display for Expr` (`fmt.rs` lines 222–330). -/
def renderExpr : Expr → Context → String
  | .illFormed, _ => ILL_FORMED
  | .self_, _ => Keyword.render .self_
  | .identifier identifier, ctx => ctx.interner identifier
  | .literal literal, ctx => renderLiteral literal ctx
  | .unaryOp op operand, ctx =>
    "("
    ++ (if op.postfixed then "" else op.render ++ " ")
    ++ renderExpr operand ctx.inlined
    ++ (if op.postfixed then " " ++ op.render else "")
    ++ ")"
  | .binaryOp left op right, ctx =>
    "(" ++ renderExpr left ctx.inlined ++ " " ++ op.render ++ " "
      ++ renderExpr right ctx.inlined ++ ")"
  | .ifExpr condition then_ otherwise, ctx =>
    Keyword.render .if_ ++ " "
    ++ renderExpr condition ctx.inlined ++ " "
    ++ Keyword.render .then_
    ++ (if ctx.indentation.isSome then "\n" else "")
    ++ (if then_.isEmpty then ""
        else renderBlock then_ ctx.indent
          ++ (if ctx.indentation.isSome then "\n" else " "))
    ++ indentOpt ctx
    ++ (if otherwise.isEmpty then ""
        else Keyword.render .else_
          ++ (if ctx.indentation.isSome then "\n" else "")
          ++ renderBlock otherwise ctx.indent
          ++ (if ctx.indentation.isSome then "\n" else " ")
          ++ indentOpt ctx)
    ++ Keyword.render .end_
  | .access object field, ctx =>
    if field.isIdentifierLiteral then
      renderExpr object ctx.inlined ++ "." ++ renderExpr field ctx.inlined
    else
      renderExpr object ctx.inlined ++ "[" ++ renderExpr field ctx.inlined ++ "]"
  | .call function args, ctx =>
    renderExpr function ctx.inlined
    ++ "(" ++ joinSep ", " (renderExprList args ctx.inlined) ++ ")"
  | .commandBlock block, ctx => renderCommandBlock block ctx

/-- `Display for Statement` (`fmt.rs` lines 333–413). -/
def renderStatement : Statement → Context → String
  | .illFormed, _ => ILL_FORMED
  | .letStmt identifier init, ctx =>
    Keyword.render .let_ ++ " " ++ ctx.interner identifier ++ " = " ++ renderExpr init ctx
  | .assign left right, ctx =>
    renderExpr left ctx.inlined ++ " = " ++ renderExpr right ctx
  | .returnStmt expr, ctx =>
    Keyword.render .return_ ++ " " ++ renderExpr expr ctx
  | .breakStmt, _ => Keyword.render .break_
  | .whileStmt condition block, ctx =>
    Keyword.render .while_ ++ " "
    ++ renderExpr condition ctx.inlined ++ " "
    ++ Keyword.render .do_
    ++ (if ctx.indentation.isSome then "\n" else " ")
    ++ (if block.isEmpty then ""
        else renderBlock block ctx.indent
          ++ (if ctx.indentation.isSome then "\n" else " "))
    ++ indentOpt ctx
    ++ Keyword.render .end_
  | .forStmt identifier expr block, ctx =>
    Keyword.render .for_ ++ " "
    ++ ctx.interner identifier ++ " "
    ++ Keyword.render .in_ ++ " "
    ++ renderExpr expr ctx.inlined ++ " "
    ++ Keyword.render .do_
    ++ (if ctx.indentation.isSome then "\n" else " ")
    ++ (if block.isEmpty then ""
        else renderBlock block ctx.indent
          ++ (if ctx.indentation.isSome then "\n" else " "))
    ++ indentOpt ctx
    ++ Keyword.render .end_
  | .expr e, ctx => renderExpr e ctx

end

/-! ## Diagnostic renderer for core constructs (`debug.rs`), compact layout

`debug.rs` is embedded in its compact (non-alternate) layout, the layout the
spec's diagnostic-mode properties quantify over.  Its `Debug` implementations
match an older shape of the tree than `fmt.rs` renders: there is no arm for
`Block::IllFormed`, `Expr::IllFormed`, `Statement::IllFormed`,
`UnaryOp::Try`, or `Literal::Identifier`.  The embedding is therefore
`Option`-valued: `none` marks a node for which `debug.rs` defines no
rendering.  Rust's builder helpers are rendered in their compact forms:
`debug_list` as `[a, b]`, `debug_set` as `{a, b}`, `debug_map` as
`{k: v, k2: v2}`. -/

/-- The prefix `Debug for Expr` writes for a command block's kind: nothing for
synchronous, `&` for asynchronous, `$` for capture. -/
def commandBlockKindDebug : CommandBlockKind → String
  | .synchronous => ""
  | .asynchronous => "&"
  | .capture => "$"

/-- Derived compact `Debug` of a dictionary key, a `(Symbol, SourcePos)` pair
(the key's own `Debug` is outside `src/`; modelled as the derived tuple
text — only its newline-freedom is relied on). -/
def dictKeyDebug (k : Symbol × SourcePos) : String :=
  "(" ++ symbolDebug k.1 ++ ", " ++ sourcePosDebug k.2 ++ ")"

mutual

/-- `Debug for Block` (`debug.rs` lines 7–19), compact: each statement
followed by `; `.  No arm exists for the ill-formed sentinel. -/
def debugBlock : Block → Option String
  | .illFormed => none
  | .block stmts => do
    let parts ← debugStmtList stmts
    pure (joinSep "" (parts.map fun s => s ++ "; "))

/-- The diagnostic renderings of a statement sequence (propagating
undefinedness of any element). -/
def debugStmtList : StmtList → Option (List String)
  | .nil => some []
  | .cons s rest => do
    let x ← debugStatement s
    let xs ← debugStmtList rest
    pure (x :: xs)

/-- `Debug for Literal` (`debug.rs` lines 22–48), compact.  String and byte
content is written raw (`from_utf8_lossy` / `as char`, with no escaping).  No
arm exists for the identifier-literal variant. -/
def debugLiteral : Literal → Option String
  | .nil => some "nil"
  | .bool b => some (boolRepr b)
  | .int i => some (intRepr i)
  | .float x => some (floatRepr x)
  | .byte c => some ("'" ++ String.mk [Char.ofNat c.val] ++ "'")
  | .string s => some ("\"" ++ utf8Lossy s ++ "\"")
  | .array items => do
    let xs ← debugExprList items
    pure ("[" ++ joinSep ", " xs ++ "]")
  | .dict entries => do
    let xs ← debugDictEntries entries
    pure ("\x7b" ++ joinSep ", " xs ++ "\x7d")
  | .function params body => do
    let b ← debugBlock body
    pure ("function ("
      ++ joinSep "" (params.map fun p => "id#" ++ natRepr p.1 ++ ", ")
      ++ ") " ++ b ++ " end")
  | .identifier _ => none

/-- The diagnostic renderings of an expression sequence. -/
def debugExprList : ExprList → Option (List String)
  | .nil => some []
  | .cons e rest => do
    let x ← debugExpr e
    let xs ← debugExprList rest
    pure (x :: xs)

/-- The `key: value` diagnostic renderings of a dictionary's entries. -/
def debugDictEntries : DictEntries → Option (List String)
  | .nil => some []
  | .cons k v rest => do
    let x ← debugExpr v
    let xs ← debugDictEntries rest
    pure ((dictKeyDebug k ++ ": " ++ x) :: xs)

/-- `Debug for Expr` (`debug.rs` lines 83–131), compact.  No arm exists for
the ill-formed sentinel. -/
def debugExpr : Expr → Option String
  | .illFormed => none
  | .self_ => some "self"
  | .identifier identifier => some ("id#" ++ natRepr identifier)
  | .literal literal => debugLiteral literal
  | .unaryOp op operand => do
    let o ← op.debugRender
    let x ← debugExpr operand
    pure ("(" ++ o ++ " " ++ x ++ ")")
  | .binaryOp left op right => do
    let l ← debugExpr left
    let r ← debugExpr right
    pure ("(" ++ l ++ " " ++ op.debugRender ++ " " ++ r ++ ")")
  | .ifExpr condition then_ otherwise => do
    let c ← debugExpr condition
    let t ← debugBlock then_
    let e ← debugBlock otherwise
    pure ("if " ++ c ++ " then " ++ t ++ " else " ++ e ++ " end")
  | .access object field => do
    let o ← debugExpr object
    let f ← debugExpr field
    pure (o ++ "[" ++ f ++ "]")
  | .call function args => do
    let f ← debugExpr function
    let xs ← debugExprList args
    pure (f ++ "(" ++ joinSep "" (xs.map fun s => s ++ ", ") ++ ")")
  | .commandBlock block =>
    some (commandBlockKindDebug block.kind
      ++ "\x7b" ++ joinSep ", " ((block.head :: block.tail).map commandDebug) ++ "\x7d")

/-- `Debug for Statement` (`debug.rs` lines 134–190), compact.  No arm exists
for the ill-formed sentinel; a let-binding prints only its identifier. -/
def debugStatement : Statement → Option String
  | .illFormed => none
  | .letStmt identifier _ => some ("let id#" ++ natRepr identifier)
  | .assign left right => do
    let l ← debugExpr left
    let r ← debugExpr right
    pure (l ++ " = " ++ r)
  | .returnStmt expr => do
    let e ← debugExpr expr
    pure ("return " ++ e)
  | .breakStmt => some "break"
  | .whileStmt condition block => do
    let c ← debugExpr condition
    let b ← debugBlock block
    pure ("while " ++ c ++ " do " ++ b ++ " end")
  | .forStmt identifier expr block => do
    let e ← debugExpr expr
    let b ← debugBlock block
    pure ("for id#" ++ natRepr identifier ++ " in " ++ e ++ " do " ++ b ++ " end")
  | .expr e => debugExpr e

end

/-! ## Well-formedness: no ill-formed sentinel anywhere in a tree -/

mutual

/-- No ill-formed argument (invalid source position) in an expansion. -/
def ArgExpansion.wf : ArgExpansion → Bool
  | .collection items => items.wf
  | _ => true

/-- No ill-formed argument in a part. -/
def ArgPart.wf : ArgPart → Bool
  | .unit _ => true
  | .expansion e => e.wf

/-- No ill-formed argument in a part sequence. -/
def ArgPartList.wf : ArgPartList → Bool
  | .nil => true
  | .cons p rest => p.wf && rest.wf

/-- The argument's position is not the invalid sentinel, and its parts are
well-formed. -/
def Argument.wf : Argument → Bool
  | .mk parts pos => pos != SourcePos.ill_formed && parts.wf

/-- No ill-formed argument in an argument sequence. -/
def ArgList.wf : ArgList → Bool
  | .nil => true
  | .cons a rest => a.wf && rest.wf

end

/-- No ill-formed node in a redirection target. -/
def RedirectionTarget.wf : RedirectionTarget → Bool
  | .fd _ => true
  | .overwrite arg => arg.wf
  | .append arg => arg.wf

/-- The redirection is not the ill-formed sentinel and contains no ill-formed
argument. -/
def Redirection.wf : Redirection → Bool
  | .illFormed => false
  | .output _ target => target.wf
  | .input _ source => source.wf

/-- No ill-formed node in a basic command. -/
def BasicCommand.wf (cmd : BasicCommand) : Bool :=
  cmd.program.wf && cmd.arguments.all Argument.wf && cmd.redirections.all Redirection.wf

/-- No ill-formed node in a pipeline. -/
def Command.wf (cmd : Command) : Bool :=
  cmd.head.wf && cmd.tail.all BasicCommand.wf

/-- No ill-formed node in a command block. -/
def CommandBlock.wf (blk : CommandBlock) : Bool :=
  blk.head.wf && blk.tail.all Command.wf

mutual

/-- No ill-formed node anywhere in a block. -/
def Block.wf : Block → Bool
  | .illFormed => false
  | .block stmts => stmts.wf

/-- No ill-formed node anywhere in a statement sequence. -/
def StmtList.wf : StmtList → Bool
  | .nil => true
  | .cons s rest => s.wf && rest.wf

/-- No ill-formed node anywhere in a literal. -/
def Literal.wf : Literal → Bool
  | .array items => items.wf
  | .dict entries => entries.wf
  | .function _ body => body.wf
  | _ => true

/-- No ill-formed node anywhere in an expression sequence. -/
def ExprList.wf : ExprList → Bool
  | .nil => true
  | .cons e rest => e.wf && rest.wf

/-- No ill-formed node anywhere in a dictionary's entries. -/
def DictEntries.wf : DictEntries → Bool
  | .nil => true
  | .cons _ v rest => v.wf && rest.wf

/-- No ill-formed node anywhere in an expression. -/
def Expr.wf : Expr → Bool
  | .illFormed => false
  | .self_ => true
  | .identifier _ => true
  | .literal literal => literal.wf
  | .unaryOp _ operand => operand.wf
  | .binaryOp left _ right => left.wf && right.wf
  | .ifExpr condition then_ otherwise => condition.wf && then_.wf && otherwise.wf
  | .access object field => object.wf && field.wf
  | .call function args => function.wf && args.wf
  | .commandBlock block => block.wf

/-- No ill-formed node anywhere in a statement. -/
def Statement.wf : Statement → Bool
  | .illFormed => false
  | .letStmt _ init => init.wf
  | .assign left right => left.wf && right.wf
  | .returnStmt expr => expr.wf
  | .breakStmt => true
  | .whileStmt condition block => condition.wf && block.wf
  | .forStmt _ expr block => expr.wf && block.wf
  | .expr e => e.wf

end

/-! ## Newline-cleanliness of literal payloads

The diagnostic renderer writes string and byte literal content raw
(`debug.rs` lines 29–30), so a newline byte in such a payload reaches the
output verbatim; these predicates say no such byte occurs. -/

mutual

/-- No newline byte in any string/byte literal payload of a block. -/
def Block.okNl : Block → Bool
  | .illFormed => true
  | .block stmts => stmts.okNl

/-- No newline byte in any string/byte literal payload of a statement
sequence. -/
def StmtList.okNl : StmtList → Bool
  | .nil => true
  | .cons s rest => s.okNl && rest.okNl

/-- No newline byte in any string/byte literal payload of a literal. -/
def Literal.okNl : Literal → Bool
  | .byte c => c != 10
  | .string s => s.all (· != 10)
  | .array items => items.okNl
  | .dict entries => entries.okNl
  | .function _ body => body.okNl
  | _ => true

/-- No newline byte in any string/byte literal payload of an expression
sequence. -/
def ExprList.okNl : ExprList → Bool
  | .nil => true
  | .cons e rest => e.okNl && rest.okNl

/-- No newline byte in any string/byte literal payload of a dictionary's
entries. -/
def DictEntries.okNl : DictEntries → Bool
  | .nil => true
  | .cons _ v rest => v.okNl && rest.okNl

/-- No newline byte in any string/byte literal payload of an expression. -/
def Expr.okNl : Expr → Bool
  | .illFormed => true
  | .self_ => true
  | .identifier _ => true
  | .literal literal => literal.okNl
  | .unaryOp _ operand => operand.okNl
  | .binaryOp left _ right => left.okNl && right.okNl
  | .ifExpr condition then_ otherwise => condition.okNl && then_.okNl && otherwise.okNl
  | .access object field => object.okNl && field.okNl
  | .call function args => function.okNl && args.okNl
  | .commandBlock _ => true

/-- No newline byte in any string/byte literal payload of a statement. -/
def Statement.okNl : Statement → Bool
  | .illFormed => true
  | .letStmt _ init => init.okNl
  | .assign left right => left.okNl && right.okNl
  | .returnStmt expr => expr.okNl
  | .breakStmt => true
  | .whileStmt condition block => condition.okNl && block.okNl
  | .forStmt _ expr block => expr.okNl && block.okNl
  | .expr e => e.okNl

end

/-! ## Newline-freedom infrastructure -/

/-- The string contains no raw newline character. -/
def NlFree (s : String) : Prop := '\n' ∉ s.data

instance : DecidablePred NlFree := fun s =>
  inferInstanceAs (Decidable ('\n' ∉ s.data))

theorem nlFree_append_iff {a b : String} : NlFree (a ++ b) ↔ (NlFree a ∧ NlFree b) := by
  simp [NlFree, String.data_append, not_or]

theorem nlFree_append {a b : String} (ha : NlFree a) (hb : NlFree b) :
    NlFree (a ++ b) :=
  nlFree_append_iff.mpr ⟨ha, hb⟩

theorem nlFree_joinSep {sep : String} (hsep : NlFree sep) :
    ∀ {l : List String}, (∀ s ∈ l, NlFree s) → NlFree (joinSep sep l)
  | [], _ => by intro hmem; simp [joinSep] at hmem
  | [s], h => h s (by simp)
  | s :: s₂ :: rest, h => by
    have hrest : NlFree (joinSep sep (s₂ :: rest)) :=
      nlFree_joinSep hsep fun x hx => h x (List.mem_cons_of_mem _ hx)
    have hs : NlFree s := h s (by simp)
    exact nlFree_append (nlFree_append hs hsep) hrest

theorem digitChar_ne_nl : ∀ k < 10, digitChar k ≠ '\n' := by decide

theorem nlFree_natDigitsCore : ∀ (fuel n : Nat), '\n' ∉ natDigitsCore fuel n
  | 0, n => by simp [natDigitsCore]
  | fuel + 1, n => by
    by_cases h : n < 10
    · simpa [natDigitsCore, h] using (digitChar_ne_nl n h).symm
    · have hrec := nlFree_natDigitsCore fuel (n / 10)
      have hdig : digitChar (n % 10) ≠ '\n' :=
        digitChar_ne_nl _ (Nat.mod_lt _ (by norm_num))
      simp only [natDigitsCore, h, if_false, List.mem_append, List.mem_singleton]
      rintro (hc | hc)
      · exact hrec hc
      · exact hdig hc.symm

theorem nlFree_natRepr (n : Nat) : NlFree (natRepr n) :=
  nlFree_natDigitsCore (n + 1) n

theorem nlFree_intRepr (i : Int) : NlFree (intRepr i) := by
  cases i with
  | ofNat n => exact nlFree_natRepr n
  | negSucc m => exact nlFree_append (by decide) (nlFree_natRepr (m + 1))

theorem nlFree_floatRepr (x : FloatLit) : NlFree (floatRepr x) :=
  nlFree_append (nlFree_append (nlFree_intRepr _) (by decide)) (nlFree_natRepr _)

theorem nlFree_boolRepr (b : Bool) : NlFree (boolRepr b) := by
  cases b <;> decide

set_option maxRecDepth 4096 in
theorem lossyByte_ne_nl :
    ∀ b : Byte, b ≠ 10 →
      (if b.val < 128 then Char.ofNat b.val else Char.ofNat 0xFFFD) ≠ '\n' := by
  decide

set_option maxRecDepth 4096 in
theorem byteChar_ne_nl : ∀ b : Byte, b ≠ 10 → Char.ofNat b.val ≠ '\n' := by
  decide

theorem nlFree_utf8Lossy {s : List Byte} (h : s.all (· != 10) = true) :
    NlFree (utf8Lossy s) := by
  intro hmem
  have hmem' : '\n' ∈ s.map
      (fun b => if b.val < 128 then Char.ofNat b.val else Char.ofNat 0xFFFD) := hmem
  obtain ⟨b, hb, hbc⟩ := List.mem_map.mp hmem'
  have hb10 : b ≠ 10 := by simpa using List.all_eq_true.mp h b hb
  exact lossyByte_ne_nl b hb10 hbc

theorem nlFree_byteListDebug (s : List Byte) : NlFree (byteListDebug s) := by
  refine nlFree_append (nlFree_append (by decide) ?_) (by decide)
  refine nlFree_joinSep (by decide) fun x hx => ?_
  obtain ⟨b, _, rfl⟩ := List.mem_map.mp hx
  exact nlFree_natRepr b.val

theorem nlFree_symbolDebug (s : Symbol) : NlFree (symbolDebug s) :=
  nlFree_append (nlFree_append (by decide) (nlFree_natRepr s)) (by decide)

theorem nlFree_sourcePosDebug (p : SourcePos) : NlFree (sourcePosDebug p) :=
  nlFree_append (nlFree_append (nlFree_append (nlFree_append (by decide)
    (nlFree_natRepr p.line)) (by decide)) (nlFree_natRepr p.column)) (by decide)

theorem nlFree_dictKeyDebug (k : Symbol × SourcePos) : NlFree (dictKeyDebug k) :=
  nlFree_append (nlFree_append (nlFree_append (nlFree_append (by decide)
    (nlFree_symbolDebug k.1)) (by decide)) (nlFree_sourcePosDebug k.2)) (by decide)

theorem nlFree_argUnitDebug (u : ArgUnit) : NlFree (argUnitDebug u) := by
  cases u with
  | literal lit =>
    exact nlFree_append (nlFree_append (by decide) (nlFree_byteListDebug lit)) (by decide)
  | dollar symbol pos =>
    exact nlFree_append (nlFree_append (nlFree_append (nlFree_append (by decide)
      (nlFree_symbolDebug symbol)) (by decide)) (nlFree_sourcePosDebug pos)) (by decide)

mutual

theorem nlFree_argExpansionDebug : ∀ e : ArgExpansion, NlFree (argExpansionDebug e)
  | .home => by decide
  | .range start stop => by
    exact nlFree_append (nlFree_append (nlFree_append (nlFree_append (by decide)
      (nlFree_intRepr start)) (by decide)) (nlFree_intRepr stop)) (by decide)
  | .collection items => by
    exact nlFree_append (nlFree_append (by decide)
      (nlFree_joinSep (by decide) (nlFree_argListDebug items))) (by decide)
  | .star => by decide
  | .question => by decide
  | .charClass chars => by
    exact nlFree_append (nlFree_append (by decide) (nlFree_byteListDebug chars)) (by decide)

theorem nlFree_argPartDebug : ∀ p : ArgPart, NlFree (argPartDebug p)
  | .unit u => by
    exact nlFree_append (nlFree_append (by decide) (nlFree_argUnitDebug u)) (by decide)
  | .expansion e => by
    exact nlFree_append (nlFree_append (by decide) (nlFree_argExpansionDebug e)) (by decide)

theorem nlFree_argPartsDebug : ∀ l : ArgPartList, ∀ s ∈ argPartsDebug l, NlFree s
  | .nil => by intro s hs; simp [argPartsDebug] at hs
  | .cons p rest => by
    intro s hs
    rcases List.mem_cons.mp hs with h | h
    · exact h ▸ nlFree_argPartDebug p
    · exact nlFree_argPartsDebug rest s h

theorem nlFree_argumentDebug : ∀ a : Argument, NlFree (argumentDebug a)
  | .mk parts pos => by
    exact nlFree_append (nlFree_append (nlFree_append (nlFree_append (by decide)
      (nlFree_joinSep (by decide) (nlFree_argPartsDebug parts))) (by decide))
      (nlFree_sourcePosDebug pos)) (by decide)

theorem nlFree_argListDebug : ∀ l : ArgList, ∀ s ∈ argListDebug l, NlFree s
  | .nil => by intro s hs; simp [argListDebug] at hs
  | .cons a rest => by
    intro s hs
    rcases List.mem_cons.mp hs with h | h
    · exact h ▸ nlFree_argumentDebug a
    · exact nlFree_argListDebug rest s h

end

theorem nlFree_redirectionTargetDebug (t : RedirectionTarget) :
    NlFree (redirectionTargetDebug t) := by
  cases t with
  | fd fd => exact nlFree_append (nlFree_append (by decide) (nlFree_natRepr fd)) (by decide)
  | overwrite arg =>
    exact nlFree_append (nlFree_append (by decide) (nlFree_argumentDebug arg)) (by decide)
  | append arg =>
    exact nlFree_append (nlFree_append (by decide) (nlFree_argumentDebug arg)) (by decide)

theorem nlFree_redirectionDebug (r : Redirection) : NlFree (redirectionDebug r) := by
  cases r with
  | illFormed => decide
  | output source target =>
    exact nlFree_append (nlFree_append (nlFree_append (nlFree_append (by decide)
      (nlFree_natRepr source)) (by decide)) (nlFree_redirectionTargetDebug target)) (by decide)
  | input literal source =>
    exact nlFree_append (nlFree_append (nlFree_append (nlFree_append (by decide)
      (nlFree_boolRepr literal)) (by decide)) (nlFree_argumentDebug source)) (by decide)

theorem nlFree_basicCommandDebug (cmd : BasicCommand) : NlFree (basicCommandDebug cmd) := by
  unfold basicCommandDebug
  refine nlFree_append (nlFree_append (nlFree_append (nlFree_append (nlFree_append
    (nlFree_append (nlFree_append (nlFree_append (by decide)
      (nlFree_argumentDebug cmd.program)) (by decide)) ?_) (by decide)) ?_)
    (by decide)) (nlFree_boolRepr cmd.abort_on_error)) (by decide)
  · refine nlFree_joinSep (by decide) fun s hs => ?_
    obtain ⟨a, _, rfl⟩ := List.mem_map.mp hs
    exact nlFree_argumentDebug a
  · refine nlFree_joinSep (by decide) fun s hs => ?_
    obtain ⟨r, _, rfl⟩ := List.mem_map.mp hs
    exact nlFree_redirectionDebug r

theorem nlFree_commandDebug (cmd : Command) : NlFree (commandDebug cmd) := by
  unfold commandDebug
  refine nlFree_append (nlFree_append (nlFree_append (nlFree_append (by decide)
    (nlFree_basicCommandDebug cmd.head)) (by decide)) ?_) (by decide)
  refine nlFree_joinSep (by decide) fun s hs => ?_
  obtain ⟨c, _, rfl⟩ := List.mem_map.mp hs
  exact nlFree_basicCommandDebug c

theorem nlFree_unaryOpDebug :
    ∀ (op : UnaryOp) (o : String), UnaryOp.debugRender op = some o → NlFree o
  | .minus, o, h => by
    simp [UnaryOp.debugRender] at h; exact h ▸ (by decide : NlFree "-")
  | .not, o, h => by
    simp [UnaryOp.debugRender] at h; exact h ▸ (by decide : NlFree "not")

theorem nlFree_binaryOpDebug (op : BinaryOp) : NlFree op.debugRender := by
  cases op <;> decide

theorem nlFree_commandBlockKindDebug (k : CommandBlockKind) :
    NlFree (commandBlockKindDebug k) := by
  cases k <;> decide

/-! The central newline-freedom result: whenever the compact diagnostic
renderer is defined on a node whose string/byte literal payloads contain no
newline byte, its output contains no raw newline. -/

mutual

theorem debugBlock_nlFree :
    ∀ b : Block, b.okNl = true → ∀ out, debugBlock b = some out → NlFree out
  | .illFormed, _, out, h => by simp [debugBlock] at h
  | .block stmts, hok, out, h => by
    cases hx : debugStmtList stmts with
    | none => simp [debugBlock, hx] at h
    | some xs =>
      simp [debugBlock, hx] at h
      refine h ▸ nlFree_joinSep (by decide) fun x hmem => ?_
      obtain ⟨y, hy, rfl⟩ := List.mem_map.mp hmem
      exact nlFree_append
        (debugStmtList_nlFree stmts (by simpa [Block.okNl] using hok) xs hx y hy)
        (by decide)

theorem debugStmtList_nlFree :
    ∀ l : StmtList, l.okNl = true → ∀ xs, debugStmtList l = some xs →
      ∀ out ∈ xs, NlFree out
  | .nil, _, xs, h => by
    simp [debugStmtList] at h
    subst h
    intro out hout
    simp at hout
  | .cons s rest, hok, xs, h => by
    obtain ⟨hok₁, hok₂⟩ := by simpa [StmtList.okNl, Bool.and_eq_true] using hok
    cases hs : debugStatement s with
    | none => simp [debugStmtList, hs] at h
    | some x =>
      cases hrest : debugStmtList rest with
      | none => simp [debugStmtList, hs, hrest] at h
      | some ys =>
        simp [debugStmtList, hs, hrest] at h
        intro out hout
        rw [← h] at hout
        rcases List.mem_cons.mp hout with h₁ | h₁
        · exact h₁ ▸ debugStatement_nlFree s hok₁ x hs
        · exact debugStmtList_nlFree rest hok₂ ys hrest out h₁

theorem debugLiteral_nlFree :
    ∀ lit : Literal, lit.okNl = true → ∀ out, debugLiteral lit = some out → NlFree out
  | .nil, _, out, h => by
    simp [debugLiteral] at h; exact h ▸ (by decide : NlFree "nil")
  | .bool b, _, out, h => by
    simp [debugLiteral] at h; exact h ▸ nlFree_boolRepr b
  | .int i, _, out, h => by
    simp [debugLiteral] at h; exact h ▸ nlFree_intRepr i
  | .float x, _, out, h => by
    simp [debugLiteral] at h; exact h ▸ nlFree_floatRepr x
  | .byte c, hok, out, h => by
    simp [debugLiteral] at h
    refine h ▸ nlFree_append (nlFree_append (by decide) ?_) (by decide)
    intro hmem
    rcases List.mem_singleton.mp hmem with h₁
    exact byteChar_ne_nl c (by simpa [Literal.okNl] using hok) h₁.symm
  | .string s, hok, out, h => by
    simp [debugLiteral] at h
    exact h ▸ nlFree_append (nlFree_append (by decide)
      (nlFree_utf8Lossy (by simpa [Literal.okNl] using hok))) (by decide)
  | .array items, hok, out, h => by
    cases hx : debugExprList items with
    | none => simp [debugLiteral, hx] at h
    | some xs =>
      simp [debugLiteral, hx] at h
      exact h ▸ nlFree_append (nlFree_append (by decide)
        (nlFree_joinSep (by decide)
          (debugExprList_nlFree items (by simpa [Literal.okNl] using hok) xs hx)))
        (by decide)
  | .dict entries, hok, out, h => by
    cases hx : debugDictEntries entries with
    | none => simp [debugLiteral, hx] at h
    | some xs =>
      simp [debugLiteral, hx] at h
      exact h ▸ nlFree_append (nlFree_append (by decide)
        (nlFree_joinSep (by decide)
          (debugDictEntries_nlFree entries (by simpa [Literal.okNl] using hok) xs hx)))
        (by decide)
  | .function params body, hok, out, h => by
    cases hb : debugBlock body with
    | none => simp [debugLiteral, hb] at h
    | some b =>
      simp [debugLiteral, hb] at h
      refine h ▸ nlFree_append (nlFree_append (nlFree_append (nlFree_append (by decide)
        ?_) (by decide))
        (debugBlock_nlFree body (by simpa [Literal.okNl] using hok) b hb)) (by decide)
      refine nlFree_joinSep (by decide) fun x hmem => ?_
      obtain ⟨p, _, rfl⟩ := List.mem_map.mp hmem
      exact nlFree_append (nlFree_append (by decide) (nlFree_natRepr p.1)) (by decide)
  | .identifier _, _, out, h => by simp [debugLiteral] at h

theorem debugExprList_nlFree :
    ∀ l : ExprList, l.okNl = true → ∀ xs, debugExprList l = some xs →
      ∀ out ∈ xs, NlFree out
  | .nil, _, xs, h => by
    simp [debugExprList] at h
    subst h
    intro out hout
    simp at hout
  | .cons e rest, hok, xs, h => by
    obtain ⟨hok₁, hok₂⟩ := by simpa [ExprList.okNl, Bool.and_eq_true] using hok
    cases he : debugExpr e with
    | none => simp [debugExprList, he] at h
    | some x =>
      cases hrest : debugExprList rest with
      | none => simp [debugExprList, he, hrest] at h
      | some ys =>
        simp [debugExprList, he, hrest] at h
        intro out hout
        rw [← h] at hout
        rcases List.mem_cons.mp hout with h₁ | h₁
        · exact h₁ ▸ debugExpr_nlFree e hok₁ x he
        · exact debugExprList_nlFree rest hok₂ ys hrest out h₁

theorem debugDictEntries_nlFree :
    ∀ l : DictEntries, l.okNl = true → ∀ xs, debugDictEntries l = some xs →
      ∀ out ∈ xs, NlFree out
  | .nil, _, xs, h => by
    simp [debugDictEntries] at h
    subst h
    intro out hout
    simp at hout
  | .cons k v rest, hok, xs, h => by
    obtain ⟨hok₁, hok₂⟩ := by simpa [DictEntries.okNl, Bool.and_eq_true] using hok
    cases hv : debugExpr v with
    | none => simp [debugDictEntries, hv] at h
    | some x =>
      cases hrest : debugDictEntries rest with
      | none => simp [debugDictEntries, hv, hrest] at h
      | some ys =>
        simp [debugDictEntries, hv, hrest] at h
        intro out hout
        rw [← h] at hout
        rcases List.mem_cons.mp hout with h₁ | h₁
        · exact h₁ ▸ nlFree_append (nlFree_append (nlFree_dictKeyDebug k) (by decide))
            (debugExpr_nlFree v hok₁ x hv)
        · exact debugDictEntries_nlFree rest hok₂ ys hrest out h₁

theorem debugExpr_nlFree :
    ∀ e : Expr, e.okNl = true → ∀ out, debugExpr e = some out → NlFree out
  | .illFormed, _, out, h => by simp [debugExpr] at h
  | .self_, _, out, h => by
    simp [debugExpr] at h; exact h ▸ (by decide : NlFree "self")
  | .identifier n, _, out, h => by
    simp [debugExpr] at h
    exact h ▸ nlFree_append (by decide) (nlFree_natRepr n)
  | .literal lit, hok, out, h =>
    debugLiteral_nlFree lit (by simpa [Expr.okNl] using hok) out (by simpa [debugExpr] using h)
  | .unaryOp op operand, hok, out, h => by
    cases ho : UnaryOp.debugRender op with
    | none => simp [debugExpr, ho] at h
    | some o =>
      cases hx : debugExpr operand with
      | none => simp [debugExpr, ho, hx] at h
      | some x =>
        simp [debugExpr, ho, hx] at h
        exact h ▸ nlFree_append (nlFree_append (nlFree_append (nlFree_append (by decide)
          (nlFree_unaryOpDebug op o ho)) (by decide))
          (debugExpr_nlFree operand (by simpa [Expr.okNl] using hok) x hx)) (by decide)
  | .binaryOp left op right, hok, out, h => by
    obtain ⟨hok₁, hok₂⟩ := by simpa [Expr.okNl, Bool.and_eq_true] using hok
    cases hl : debugExpr left with
    | none => simp [debugExpr, hl] at h
    | some ls =>
      cases hr : debugExpr right with
      | none => simp [debugExpr, hl, hr] at h
      | some rs =>
        simp [debugExpr, hl, hr] at h
        exact h ▸ nlFree_append (nlFree_append (nlFree_append (nlFree_append
          (nlFree_append (nlFree_append (by decide) (debugExpr_nlFree left hok₁ ls hl))
          (by decide)) (nlFree_binaryOpDebug op)) (by decide))
          (debugExpr_nlFree right hok₂ rs hr)) (by decide)
  | .ifExpr condition then_ otherwise, hok, out, h => by
    obtain ⟨hok₁, hok₂, hok₃⟩ := by
      simpa [Expr.okNl, Bool.and_eq_true, and_assoc] using hok
    cases hc : debugExpr condition with
    | none => simp [debugExpr, hc] at h
    | some cs =>
      cases ht : debugBlock then_ with
      | none => simp [debugExpr, hc, ht] at h
      | some ts =>
        cases he : debugBlock otherwise with
        | none => simp [debugExpr, hc, ht, he] at h
        | some es =>
          simp [debugExpr, hc, ht, he] at h
          exact h ▸ nlFree_append (nlFree_append (nlFree_append (nlFree_append
            (nlFree_append (nlFree_append (by decide)
              (debugExpr_nlFree condition hok₁ cs hc)) (by decide))
            (debugBlock_nlFree then_ hok₂ ts ht)) (by decide))
            (debugBlock_nlFree otherwise hok₃ es he)) (by decide)
  | .access object field, hok, out, h => by
    obtain ⟨hok₁, hok₂⟩ := by simpa [Expr.okNl, Bool.and_eq_true] using hok
    cases ho : debugExpr object with
    | none => simp [debugExpr, ho] at h
    | some os =>
      cases hf : debugExpr field with
      | none => simp [debugExpr, ho, hf] at h
      | some fs =>
        simp [debugExpr, ho, hf] at h
        exact h ▸ nlFree_append (nlFree_append (nlFree_append
          (debugExpr_nlFree object hok₁ os ho) (by decide))
          (debugExpr_nlFree field hok₂ fs hf)) (by decide)
  | .call function args, hok, out, h => by
    obtain ⟨hok₁, hok₂⟩ := by simpa [Expr.okNl, Bool.and_eq_true] using hok
    cases hf : debugExpr function with
    | none => simp [debugExpr, hf] at h
    | some fs =>
      cases hx : debugExprList args with
      | none => simp [debugExpr, hf, hx] at h
      | some xs =>
        simp [debugExpr, hf, hx] at h
        refine h ▸ nlFree_append (nlFree_append (nlFree_append
          (debugExpr_nlFree function hok₁ fs hf) (by decide)) ?_) (by decide)
        refine nlFree_joinSep (by decide) fun x hmem => ?_
        obtain ⟨y, hy, rfl⟩ := List.mem_map.mp hmem
        exact nlFree_append (debugExprList_nlFree args hok₂ xs hx y hy) (by decide)
  | .commandBlock block, _, out, h => by
    simp [debugExpr] at h
    refine h ▸ nlFree_append (nlFree_append (nlFree_append
      (nlFree_commandBlockKindDebug block.kind) (by decide)) ?_) (by decide)
    refine nlFree_joinSep (by decide) fun x hmem => ?_
    rcases List.mem_cons.mp hmem with h₁ | h₁
    · exact h₁ ▸ nlFree_commandDebug block.head
    · obtain ⟨c, _, rfl⟩ := List.mem_map.mp h₁
      exact nlFree_commandDebug c

theorem debugStatement_nlFree :
    ∀ s : Statement, s.okNl = true → ∀ out, debugStatement s = some out → NlFree out
  | .illFormed, _, out, h => by simp [debugStatement] at h
  | .letStmt n _, _, out, h => by
    simp [debugStatement] at h
    exact h ▸ nlFree_append (by decide) (nlFree_natRepr n)
  | .assign left right, hok, out, h => by
    obtain ⟨hok₁, hok₂⟩ := by simpa [Statement.okNl, Bool.and_eq_true] using hok
    cases hl : debugExpr left with
    | none => simp [debugStatement, hl] at h
    | some ls =>
      cases hr : debugExpr right with
      | none => simp [debugStatement, hl, hr] at h
      | some rs =>
        simp [debugStatement, hl, hr] at h
        exact h ▸ nlFree_append (nlFree_append (debugExpr_nlFree left hok₁ ls hl)
          (by decide)) (debugExpr_nlFree right hok₂ rs hr)
  | .returnStmt expr, hok, out, h => by
    cases he : debugExpr expr with
    | none => simp [debugStatement, he] at h
    | some es =>
      simp [debugStatement, he] at h
      exact h ▸ nlFree_append (by decide)
        (debugExpr_nlFree expr (by simpa [Statement.okNl] using hok) es he)
  | .breakStmt, _, out, h => by
    simp [debugStatement] at h; exact h ▸ (by decide : NlFree "break")
  | .whileStmt condition block, hok, out, h => by
    obtain ⟨hok₁, hok₂⟩ := by simpa [Statement.okNl, Bool.and_eq_true] using hok
    cases hc : debugExpr condition with
    | none => simp [debugStatement, hc] at h
    | some cs =>
      cases hb : debugBlock block with
      | none => simp [debugStatement, hc, hb] at h
      | some bs =>
        simp [debugStatement, hc, hb] at h
        exact h ▸ nlFree_append (nlFree_append (nlFree_append (nlFree_append (by decide)
          (debugExpr_nlFree condition hok₁ cs hc)) (by decide))
          (debugBlock_nlFree block hok₂ bs hb)) (by decide)
  | .forStmt n expr block, hok, out, h => by
    obtain ⟨hok₁, hok₂⟩ := by simpa [Statement.okNl, Bool.and_eq_true] using hok
    cases he : debugExpr expr with
    | none => simp [debugStatement, he] at h
    | some es =>
      cases hb : debugBlock block with
      | none => simp [debugStatement, he, hb] at h
      | some bs =>
        simp [debugStatement, he, hb] at h
        exact h ▸ nlFree_append (nlFree_append (nlFree_append (nlFree_append
          (nlFree_append (nlFree_append (by decide) (nlFree_natRepr n)) (by decide))
          (debugExpr_nlFree expr hok₁ es he)) (by decide))
          (debugBlock_nlFree block hok₂ bs hb)) (by decide)
  | .expr e, hok, out, h =>
    debugExpr_nlFree e (by simpa [Statement.okNl] using hok) out
      (by simpa [debugStatement] using h)

end

/-! ## Concrete data used by witnesses and counterexamples -/

/-- An interner for concrete instances: handle 0 resolves to `x`, 1 to `obj`,
2 to `name`, anything else to `sym`. -/
def sampleInterner : Interner := fun n =>
  if n = 0 then "x" else if n = 1 then "obj" else if n = 2 then "name" else "sym"

/-! ## The claims -/

/-- **C2.** For every node of variant ill-formed reachable through `Block`,
`Expr`, `Statement`, or `Redirection`, and for every `Argument` whose source
position equals the invalid-position sentinel, human-mode rendering emits
exactly the single fixed marker string (`***ill-formed***`, the same marker in
every such position) and nothing else for that node, in both compact and
indented contexts (the equations hold for every context and interner). -/
theorem c2_ill_formed_marker (ctx : Context) (intr : Interner) (parts : ArgPartList) :
    renderBlock .illFormed ctx = ILL_FORMED ∧
    renderExpr .illFormed ctx = ILL_FORMED ∧
    renderStatement .illFormed ctx = ILL_FORMED ∧
    renderRedirection intr .illFormed = ILL_FORMED ∧
    renderArgument intr (.mk parts SourcePos.ill_formed) = ILL_FORMED := by
  refine ⟨rfl, rfl, rfl, rfl, ?_⟩
  simp [renderArgument]

/-- **C4.** For every `Access` node, the human renderer produces dot-notation
`object.field` when the field subexpression is an identifier-literal, and
bracket-notation `object[field]` for every other field subexpression; the
diagnostic renderer always produces the bracket form (never dot-notation). -/
theorem c4_access_dot_vs_bracket (object field : Expr) (sym : Symbol) (ctx : Context)
    (os fs : String) :
    renderExpr (.access object (.literal (.identifier sym))) ctx
      = renderExpr object ctx.inlined ++ "."
        ++ renderExpr (.literal (.identifier sym)) ctx.inlined ∧
    (field.isIdentifierLiteral = false →
      renderExpr (.access object field) ctx
        = renderExpr object ctx.inlined ++ "[" ++ renderExpr field ctx.inlined ++ "]") ∧
    (debugExpr object = some os → debugExpr field = some fs →
      debugExpr (.access object field) = some (os ++ "[" ++ fs ++ "]")) := by
  refine ⟨rfl, fun h => ?_, fun h₁ h₂ => ?_⟩
  · simp [renderExpr, h]
  · simp [debugExpr, h₁, h₂]

/-- Witness for C4 at `object = obj`, `field = Literal(Int 0)`:
`obj[0]` in human mode and `id#1[0]` in diagnostic mode. -/
theorem c4_witness :
    renderExpr (.access (.identifier 1) (.literal (.int 0))) ⟨sampleInterner, none⟩
      = "obj[0]" ∧
    debugExpr (.access (.identifier 1) (.literal (.int 0))) = some "id#1[0]" := by
  have h := c4_access_dot_vs_bracket (.identifier 1) (.literal (.int 0)) 2
    ⟨sampleInterner, none⟩ "id#1" "0"
  refine ⟨?_, ?_⟩
  · rw [h.2.1 (by decide)]; decide
  · rw [h.2.2 (by decide) (by decide)]; decide

/-- **C5.** For every binary operator application, both the human rendering
and the diagnostic rendering wrap the application in exactly one matching pair
of parentheses around the `left op right` body, regardless of the operands and
with no precedence-based omission. -/
theorem c5_binary_op_parenthesized (left right : Expr) (op : BinaryOp) (ctx : Context)
    (ls rs : String) :
    renderExpr (.binaryOp left op right) ctx
      = "(" ++ (renderExpr left ctx.inlined ++ " " ++ op.render ++ " "
        ++ renderExpr right ctx.inlined) ++ ")" ∧
    (debugExpr left = some ls → debugExpr right = some rs →
      debugExpr (.binaryOp left op right)
        = some ("(" ++ (ls ++ " " ++ op.debugRender ++ " " ++ rs) ++ ")")) := by
  constructor
  · apply String.ext
    simp [renderExpr, String.data_append, List.append_assoc]
  · intro h₁ h₂
    have : debugExpr (.binaryOp left op right)
        = some ("(" ++ ls ++ " " ++ op.debugRender ++ " " ++ rs ++ ")") := by
      simp [debugExpr, h₁, h₂]
    rw [this]
    exact congrArg some (by apply String.ext; simp [String.data_append, List.append_assoc])

/-- Witness for C5 at `(id#3 + 2)`. -/
theorem c5_witness :
    debugExpr (.binaryOp (.identifier 3) .plus (.literal (.int 2)))
      = some ("(" ++ ("id#3" ++ " " ++ BinaryOp.debugRender .plus ++ " " ++ "2") ++ ")") :=
  (c5_binary_op_parenthesized (.identifier 3) (.literal (.int 2)) .plus
    ⟨sampleInterner, none⟩ "id#3" "2").2 (by decide) (by decide)

/-- **C6.** In the human renderer, the try unary operator is rendered postfix
(the operand precedes the `?` symbol) while every other unary operator is
rendered with the operator before its operand, inside the parenthesized
application. -/
theorem c6_try_postfix_others_prefixed (operand : Expr) (op : UnaryOp) (ctx : Context) :
    renderExpr (.unaryOp .try_ operand) ctx
      = "(" ++ renderExpr operand ctx.inlined ++ " " ++ UnaryOp.render .try_ ++ ")" ∧
    (op ≠ .try_ →
      renderExpr (.unaryOp op operand) ctx
        = "(" ++ op.render ++ " " ++ renderExpr operand ctx.inlined ++ ")") := by
  constructor
  · apply String.ext
    simp [renderExpr, UnaryOp.postfixed, String.data_append, List.append_assoc]
  · intro h
    apply String.ext
    cases op with
    | try_ => exact absurd rfl h
    | minus => simp [renderExpr, UnaryOp.postfixed, String.data_append, List.append_assoc]
    | not => simp [renderExpr, UnaryOp.postfixed, String.data_append, List.append_assoc]

/-- Witness for C6: `(- x)` for the prefixed minus operator, at a concrete
operand. -/
theorem c6_witness :
    renderExpr (.unaryOp .minus (.identifier 0)) ⟨sampleInterner, none⟩
      = "(" ++ UnaryOp.render .minus ++ " "
        ++ renderExpr (.identifier 0) (Context.inlined ⟨sampleInterner, none⟩) ++ ")" :=
  (c6_try_postfix_others_prefixed (.identifier 0) .minus ⟨sampleInterner, none⟩).2
    (by decide)

/-- **C9.** For every rendering context: if indentation is enabled at depth
`D` then `indent()` has indentation enabled at depth `D + 1`; if indentation
is disabled then `indent()` is the identity; `inlined()` always has
indentation disabled; and the disabling is irreversible:
`c.inlined().indent() = c.inlined()`. -/
theorem c9_context_indent_inlined (c : Context) (D : Nat) :
    (c.indentation = some D → (c.indent).indentation = some (D + 1)) ∧
    (c.indentation = none → c.indent = c) ∧
    (c.inlined).indentation = none ∧
    (c.inlined).indent = c.inlined := by
  refine ⟨fun h => ?_, fun h => ?_, rfl, ?_⟩
  · simp [Context.indent, h]
  · cases c
    simp_all [Context.indent]
  · cases c
    simp [Context.inlined, Context.indent]

/-- Witness for C9: both hypotheses discharged at concrete contexts. -/
theorem c9_witness :
    (Context.indent ⟨sampleInterner, some 0⟩).indentation = some 1 ∧
    Context.indent ⟨sampleInterner, none⟩ = ⟨sampleInterner, none⟩ :=
  ⟨(c9_context_indent_inlined ⟨sampleInterner, some 0⟩ 0).1 rfl,
   (c9_context_indent_inlined ⟨sampleInterner, none⟩ 0).2.1 rfl⟩

/-- **C10.** For every well-formed `Block` whose statement sequence is empty,
the human renderer emits the empty string — no separators, no leading space,
no indentation — in both compact and indented contexts (the equation holds
for every context). -/
theorem c10_empty_block_renders_nothing (ctx : Context) :
    renderBlock (.block .nil) ctx = "" := rfl

/-- **C1 (counterexample).** The claim says `then` is emitted iff the
then-block is non-empty; but in the human rendering of a conditional whose
then-block is empty, the `then` keyword still appears (compact rendering of
`if true then end` with both blocks empty is `if true thenend`). -/
theorem c1_counterexample :
    Block.isEmpty (Block.block .nil) = true ∧
    "then".data <:+:
      (renderExpr (.ifExpr (.literal (.bool true)) (.block .nil) (.block .nil))
        ⟨sampleInterner, none⟩).data :=
  ⟨rfl, by decide⟩

/-- **C1 (amended).** For every conditional expression rendered by the human
renderer, in both compact and indented contexts: the wrapping `if` and `end`
keywords are always emitted (as prefix resp. suffix of the node's rendering),
the `then` keyword is always emitted (also when the then-block is empty), and
the `else` keyword is emitted if the else-block is non-empty; when the
else-block is empty the rendering is exactly the `if <cond> then <then?> end`
text, with no else chunk. -/
theorem c1_if_then_else_emission (condition : Expr) (then_ otherwise : Block)
    (ctx : Context) :
    "if".data <+: (renderExpr (.ifExpr condition then_ otherwise) ctx).data ∧
    "end".data <:+ (renderExpr (.ifExpr condition then_ otherwise) ctx).data ∧
    "then".data <:+: (renderExpr (.ifExpr condition then_ otherwise) ctx).data ∧
    (otherwise.isEmpty = false →
      "else".data <:+: (renderExpr (.ifExpr condition then_ otherwise) ctx).data) ∧
    (otherwise.isEmpty = true →
      renderExpr (.ifExpr condition then_ otherwise) ctx
        = "if " ++ renderExpr condition ctx.inlined ++ " then"
          ++ (if ctx.indentation.isSome then "\n" else "")
          ++ (if then_.isEmpty then "" else renderBlock then_ ctx.indent
              ++ (if ctx.indentation.isSome then "\n" else " "))
          ++ indentOpt ctx ++ "end") := by
  refine ⟨?_, ?_, ?_, fun h => ?_, fun h => ?_⟩
  · refine ⟨(" " ++ renderExpr condition ctx.inlined ++ " " ++ "then"
      ++ (if ctx.indentation.isSome then "\n" else "")
      ++ (if then_.isEmpty then "" else renderBlock then_ ctx.indent
          ++ (if ctx.indentation.isSome then "\n" else " "))
      ++ indentOpt ctx
      ++ (if otherwise.isEmpty then "" else "else"
          ++ (if ctx.indentation.isSome then "\n" else "")
          ++ renderBlock otherwise ctx.indent
          ++ (if ctx.indentation.isSome then "\n" else " ")
          ++ indentOpt ctx)
      ++ "end").data, ?_⟩
    simp [renderExpr, Keyword.render, String.data_append, List.append_assoc]
  · refine ⟨("if" ++ " " ++ renderExpr condition ctx.inlined ++ " " ++ "then"
      ++ (if ctx.indentation.isSome then "\n" else "")
      ++ (if then_.isEmpty then "" else renderBlock then_ ctx.indent
          ++ (if ctx.indentation.isSome then "\n" else " "))
      ++ indentOpt ctx
      ++ (if otherwise.isEmpty then "" else "else"
          ++ (if ctx.indentation.isSome then "\n" else "")
          ++ renderBlock otherwise ctx.indent
          ++ (if ctx.indentation.isSome then "\n" else " ")
          ++ indentOpt ctx)).data, ?_⟩
    simp [renderExpr, Keyword.render, String.data_append, List.append_assoc]
  · refine ⟨("if" ++ " " ++ renderExpr condition ctx.inlined ++ " ").data,
      ((if ctx.indentation.isSome then "\n" else "")
      ++ (if then_.isEmpty then "" else renderBlock then_ ctx.indent
          ++ (if ctx.indentation.isSome then "\n" else " "))
      ++ indentOpt ctx
      ++ (if otherwise.isEmpty then "" else "else"
          ++ (if ctx.indentation.isSome then "\n" else "")
          ++ renderBlock otherwise ctx.indent
          ++ (if ctx.indentation.isSome then "\n" else " ")
          ++ indentOpt ctx)
      ++ "end").data, ?_⟩
    simp [renderExpr, Keyword.render, String.data_append, List.append_assoc]
  · refine ⟨("if" ++ " " ++ renderExpr condition ctx.inlined ++ " " ++ "then"
      ++ (if ctx.indentation.isSome then "\n" else "")
      ++ (if then_.isEmpty then "" else renderBlock then_ ctx.indent
          ++ (if ctx.indentation.isSome then "\n" else " "))
      ++ indentOpt ctx).data,
      ((if ctx.indentation.isSome then "\n" else "")
      ++ renderBlock otherwise ctx.indent
      ++ (if ctx.indentation.isSome then "\n" else " ")
      ++ indentOpt ctx
      ++ "end").data, ?_⟩
    simp [renderExpr, h, Keyword.render, String.data_append, List.append_assoc]
  · apply String.ext
    simp [renderExpr, h, Keyword.render, String.data_append, List.append_assoc]

/-- Witness for C1: the else-emission at a non-empty else-block, and the
else-free equation at an empty else-block (evaluating to `if true thenend` in
compact mode). -/
theorem c1_witness :
    ("else".data <:+:
      (renderExpr (.ifExpr (.literal (.bool true)) (.block .nil)
        (.block (.cons .breakStmt .nil))) ⟨sampleInterner, none⟩).data) ∧
    renderExpr (.ifExpr (.literal (.bool true)) (.block .nil) (.block .nil))
      ⟨sampleInterner, none⟩ = "if true thenend" := by
  constructor
  · exact (c1_if_then_else_emission (.literal (.bool true)) (.block .nil)
      (.block (.cons .breakStmt .nil)) ⟨sampleInterner, none⟩).2.2.2.1 rfl
  · have h := (c1_if_then_else_emission (.literal (.bool true)) (.block .nil)
      (.block .nil) ⟨sampleInterner, none⟩).2.2.2.2 rfl
    rw [h]; decide

/-- **C3 (counterexample).** A well-formed `Expr` tree — the string literal
holding the bytes `h`, newline, `i` — whose compact diagnostic rendering
contains a raw newline, because `debug.rs` writes string content raw. -/
theorem c3_counterexample :
    Expr.wf (.literal (.string [104, 10, 105])) = true ∧
    debugExpr (.literal (.string [104, 10, 105])) = some "\"h\ni\"" ∧
    ¬ NlFree "\"h\ni\"" :=
  ⟨rfl, by decide, by decide⟩

/-- **C3 (amended).** For every `Expr` tree all of whose nodes are well-formed
and whose string/byte literal payloads contain no newline byte, the text
produced by diagnostic-mode compact rendering contains no raw newline
character. -/
theorem c3_compact_diagnostic_no_newline (e : Expr) (out : String)
    (_hwf : e.wf = true) (hok : e.okNl = true) (h : debugExpr e = some out) :
    NlFree out :=
  debugExpr_nlFree e hok out h

/-- Witness for C3 at the one-byte string literal `h`. -/
theorem c3_witness :
    Expr.wf (.literal (.string [104])) = true ∧
    Expr.okNl (.literal (.string [104])) = true ∧
    debugExpr (.literal (.string [104])) = some "\"h\"" ∧
    NlFree "\"h\"" :=
  ⟨by decide, by decide, by decide,
    c3_compact_diagnostic_no_newline (.literal (.string [104])) "\"h\""
      (by decide) (by decide) (by decide)⟩

/-- The pipeline of the spec's end-to-end example (§8): a synchronous command
block holding the single pipeline `ls -la | grep foo`, all arguments
well-formed single-literal arguments and both commands with
`abort_on_error = true`. -/
def lsGrepPipeline : CommandBlock :=
  { kind := .synchronous
    head :=
      { head :=
          { program := .mk (.cons (.unit (.literal [108, 115])) .nil) ⟨1, 1⟩
            arguments := [.mk (.cons (.unit (.literal [45, 108, 97])) .nil) ⟨1, 1⟩]
            redirections := []
            abort_on_error := true }
        tail :=
          [{ program := .mk (.cons (.unit (.literal [103, 114, 101, 112])) .nil) ⟨1, 1⟩
             arguments := [.mk (.cons (.unit (.literal [102, 111, 111])) .nil) ⟨1, 1⟩]
             redirections := []
             abort_on_error := true }] }
    tail := [] }

/-- **C7 (counterexample).** The spec's end-to-end pipeline example claims the
rendering `{\n    ls -la | grep foo\n}`; the human renderer wraps every
argument in double quotes (`Display for Argument`), so the actual rendering
differs from the claimed text. -/
theorem c7_counterexample :
    renderCommandBlock lsGrepPipeline ⟨sampleInterner, some 0⟩
      ≠ "\x7b\n    ls -la | grep foo\n\x7d" := by decide

/-- **C7 (amended).** In human indented mode at outermost depth, the
synchronous command block of the `ls -la | grep foo` pipeline renders as
`{`, newline, one indentation level, the head command with each pipeline-tail
command preceded by the pipe separator — every argument wrapped in double
quotes — then a newline and the `}` closer at the block's own (zero)
indentation. -/
theorem c7_pipeline_rendering :
    renderCommandBlock lsGrepPipeline ⟨sampleInterner, some 0⟩
      = "\x7b\n    \"ls\" \"-la\" | \"grep\" \"foo\"\n\x7d" := by decide

/-- **C8.** The diagnostic renderer is not total: `debug.rs` matches an older
shape of the tree and has no arm for `UnaryOp::Try`, for the `IllFormed`
variants of `Expr`/`Statement`/`Block`, or for `Literal::Identifier`, so
diagnostic rendering is undefined (`none` in this embedding) at those
variants — contradicting both the claim and the repository's own build-time
exhaustiveness requirement. -/
theorem c8_diagnostic_missing_arms :
    UnaryOp.debugRender .try_ = none ∧
    debugExpr (.unaryOp .try_ (.literal .nil)) = none ∧
    debugExpr .illFormed = none ∧
    debugStatement .illFormed = none ∧
    debugBlock .illFormed = none ∧
    debugLiteral (.identifier 0) = none :=
  ⟨rfl, by decide, rfl, rfl, rfl, rfl⟩

end Hush
